import Mathlib

/-!
Verification of the curve-reconstruction and orchestration logic in
`analysis/prepare.py` of the covid-rs repository.

The numeric core of the script operates on integer pandas/numpy series
(`epicurve = cases.diff().fillna(0).astype("int")`, the age-bucket sums, and
the post-processing columns of `run_simulation`).  We embed these as Lean
functions on `List Int`, reproducing Python/numpy slice and broadcast
semantics exactly where the script relies on them:

* `list[i:j]` (non-negative bounds)  ↦  `(l.take j).drop i`;
* `list[:k]` with a possibly negative `k`  ↦  `pyTake` (a negative bound
  counts from the end, clamped at 0);
* numpy `a += b` on 1-d arrays  ↦  `npAddInPlace` (requires equal lengths or
  a broadcastable length-1 right operand, otherwise raises);
* `arr[-1]` on an empty array and unguarded `while` scans that run past the
  end of the array raise, which we model with `Option` (`none` = the Python
  exception).
-/

namespace Covid

/-- `WINDOW_SIZE = 14` in prepare.py; `WINDOW_SIZE / 2 = 7` is the
half-window used by the tail-truncation policy. -/
def WINDOW_SIZE : Nat := 14

/-- numpy slice `a[::2]` — every second element, starting at index 0. -/
def evens : List Int → List Int
  | [] => []
  | [x] => [x]
  | x :: _ :: rest => x :: evens rest

/-- numpy in-place add `a += b` on 1-d integer arrays: defined when the
shapes match, or when `b` has length 1 (broadcast); otherwise numpy raises a
shape-mismatch error, modelled as `none`. -/
def npAddInPlace (a b : List Int) : Option (List Int) :=
  if b.length = a.length then some (List.zipWith (· + ·) a b)
  else if b.length = 1 then some (a.map (· + b.headD 0))
  else none

/-- Age re-bucketing of `prepare_region` (prepare.py lines 43-46):

    distrib = df.values.copy()[:18:2]
    distrib += df.values[1:18:2]
    distrib[-1] += df.values[18:].sum()

`bins` is the raw age histogram.  `distrib[-1]` on an empty array raises
(`none`), as does a non-broadcastable `+=`. -/
def ageBuckets (bins : List Int) : Option (List Int) :=
  (npAddInPlace (evens (bins.take 18)) (evens (bins.take 18).tail)).bind
    fun d =>
      if hd : d = [] then none
      else some (d.dropLast ++ [d.getLast hd + (bins.drop 18).sum])

/-- `cases.diff().fillna(0)` on an integer series: entry 0 (whose difference
is undefined) is filled with 0, entry `t+1` is `l[t+1] - l[t]`.  The
subsequent `astype("int")` is the identity on an already-integer series. -/
def diffFill0 (l : List Int) : List Int :=
  match l with
  | [] => []
  | _ :: t => 0 :: List.zipWith (· - ·) t l

/-- The differentiation rule as the spec words it (§4.1 step 4): the first
delta is "the first absolute value" of the cumulative series.  Kept only to
compare against `diffFill0`, the rule the code implements. -/
def specDiffFirstAbs : List Int → List Int
  | [] => []
  | x :: t => |x| :: List.zipWith (· - ·) t (x :: t)

/-- Python slice `l[:k]` where `k` may be negative: a negative bound counts
from the end of the list (`l[:k] = l[0 : max(len(l)+k, 0)]`). -/
def pyTake (l : List Int) (k : Int) : List Int :=
  if k < 0 then l.take ((l.length : Int) + k).toNat else l.take k.toNat

/-- The scan `i = 0; while epicurve[i] == 0: i += 1` — index of the first
non-zero entry; on an all-zero list the loop walks past the last index and
the read `epicurve[i]` raises IndexError, modelled as `none`. -/
def firstNonzeroIdx? : List Int → Option Nat
  | [] => none
  | x :: rest => if x = 0 then (firstNonzeroIdx? rest).map (· + 1) else some 0

/-- Length of the leading run of zeros. -/
def leadingZeros : List Int → Nat
  | [] => 0
  | x :: rest => if x = 0 then leadingZeros rest + 1 else 0

/-- The scan `j = len(epicurve) - 1; while epicurve[j] == 0: j -= 1` — when
the list has a non-zero entry, the loop stops at the last non-zero index,
i.e. `length - 1 - (number of trailing zeros)`. -/
def lastNonzeroIdx (l : List Int) : Nat :=
  l.length - 1 - leadingZeros l.reverse

/-- Epicurve cleaning of `prepare_region` (prepare.py lines 63-76):

    i, j = 0, len(epicurve) - 1
    while epicurve[i] == 0: i += 1
    while epicurve[j] == 0: j -= 1
    if (n := len(epicurve) - j - 1):
        m = n + WINDOW_SIZE // 2
        epicurve = list(epicurve)[:j - WINDOW_SIZE // 2]
        n += WINDOW_SIZE // 2
    epicurve = epicurve[i:j]

Returns the cleaned series together with the reported `delay` (the final
value of `n`); `none` models the IndexError of the unguarded first scan on
an all-zero series. -/
def cleanEpicurve (epicurve : List Int) : Option (List Int × Nat) :=
  match firstNonzeroIdx? epicurve with
  | none => none
  | some i =>
    if epicurve.length - lastNonzeroIdx epicurve - 1 ≠ 0 then
      some
        (((pyTake epicurve
              ((lastNonzeroIdx epicurve : Int) - ((WINDOW_SIZE / 2 : Nat) : Int))).take
            (lastNonzeroIdx epicurve)).drop i,
          (epicurve.length - lastNonzeroIdx epicurve - 1) + WINDOW_SIZE / 2)
    else
      some ((epicurve.take (lastNonzeroIdx epicurve)).drop i, 0)

/-- The integer payload of the TOML config written by `prepare_region`
(`num_iter=60`, `pop_counts`, `epicurve.data`, `delay`).  The remaining
fields (`prob_infection=0.10`, `n_contacts=3.5`, `smoothness=0.75`,
`attack_rate`) are floating-point constants or display-only values no claim
depends on. -/
structure SimConfig where
  num_iter : Nat
  pop_counts : List Int
  epicurve_data : List Int
  delay : Nat
  deriving DecidableEq

/-- `prepare_region` restricted to its integer data flow: the age histogram
is re-bucketed and the differentiated epicurve is cleaned; any Python
exception in either step aborts the region (`none`). -/
def prepare_region (ageBins epicurve : List Int) : Option SimConfig :=
  match ageBuckets ageBins, cleanEpicurve epicurve with
  | some pc, some (data, delay) =>
      some { num_iter := 60, pop_counts := pc, epicurve_data := data, delay := delay }
  | _, _ => none

/-- The post-processed `epicurve.csv` schema of `run_simulation`: the raw
output columns `S`, `D` plus the four derived columns. -/
structure SimResult where
  S : List Int
  D : List Int
  new_cases : List Int
  new_deaths : List Int
  cases : List Int
  deaths : List Int
  deriving DecidableEq

/-- Post-processing step of `run_simulation` (prepare.py lines 115-118):

    res['new_cases'] = -res['S'].diff().fillna(0).astype('int')
    res['new_deaths'] = res['D'].diff().fillna(0).astype('int')
    res['cases'] = res['S'].iloc[0] - res['S']
    res['deaths'] = res['D'] - res['D'].iloc[0]

`.iloc[0]` on an empty column raises, modelled as `none`. -/
def postProcess (S D : List Int) : Option SimResult :=
  match S, D with
  | s0 :: _, d0 :: _ =>
      some { S := S, D := D,
             new_cases := (diffFill0 S).map (fun x => -x),
             new_deaths := diffFill0 D,
             cases := S.map (fun s => s0 - s),
             deaths := D.map (fun d => d - d0) }
  | _, _ => none

/-- One worker of `run_simulation` (prepare.py lines 111-119).  The external
executable for a region is abstracted as a function from the region to an
exit code and the `(S, D)` columns of the `epicurve.csv` it leaves behind
(`none` when the file is missing/unreadable, in which case `read_csv`
raises and the region's future swallows the exception).  Mirroring
`run(EXECUTABLE, cwd=path)` — called without `check=True` — the exit code is
never consulted. -/
def run_simulation (exe : Nat → Int × Option (List Int × List Int)) (region : Nat) :
    Option SimResult :=
  match (exe region).2 with
  | none => none
  | some (S, D) => postProcess S D

/-- `prepare_all`'s dispatch loop: one independent `run_simulation` task per
region. -/
def prepare_all_results (exe : Nat → Int × Option (List Int × List Int))
    (regions : List Nat) : List (Option SimResult) :=
  regions.map (run_simulation exe)

/-- A mock executable for five regions that exits with status 1 on region 2
and 0 elsewhere, writing the same readable output everywhere. -/
def exe5 : Nat → Int × Option (List Int × List Int) :=
  fun r => (if r = 2 then 1 else 0, some ([10, 8, 7], [0, 1, 1]))

/-! ## Helper lemmas -/

theorem evens_length : ∀ l : List Int, (evens l).length = (l.length + 1) / 2
  | [] => by simp [evens]
  | [_] => by simp [evens]
  | _ :: _ :: rest => by
      simp only [evens, List.length_cons, evens_length rest]
      omega

theorem firstNonzeroIdx?_eq_none_of_all_zero (l : List Int) (h : ∀ x ∈ l, x = 0) :
    firstNonzeroIdx? l = none := by
  induction l with
  | nil => rfl
  | cons x rest ih =>
      have hx : x = 0 := h x (List.mem_cons_self x rest)
      simp [firstNonzeroIdx?, hx, ih fun y hy => h y (List.mem_cons_of_mem x hy)]

theorem cleanEpicurve_tail_pos (l : List Int) (i j : Nat)
    (h1 : firstNonzeroIdx? l = some i) (h2 : lastNonzeroIdx l = j)
    (hn : l.length - j - 1 ≠ 0) (hw : WINDOW_SIZE / 2 ≤ j) :
    cleanEpicurve l =
      some ((l.take (j - WINDOW_SIZE / 2)).drop i,
        (l.length - j - 1) + WINDOW_SIZE / 2) := by
  have hpy : pyTake l ((j : Int) - ((WINDOW_SIZE / 2 : Nat) : Int)) =
      l.take (j - WINDOW_SIZE / 2) := by
    unfold pyTake
    rw [if_neg (by omega)]
    congr 1
    omega
  simp only [cleanEpicurve, h1, h2]
  rw [if_pos hn, hpy, List.take_take, Nat.min_eq_right (Nat.sub_le _ _)]

theorem cleanEpicurve_tail_zero (l : List Int) (i j : Nat)
    (h1 : firstNonzeroIdx? l = some i) (h2 : lastNonzeroIdx l = j)
    (hn : l.length - j - 1 = 0) :
    cleanEpicurve l = some ((l.take j).drop i, 0) := by
  simp only [cleanEpicurve, h1, h2]
  rw [if_neg (not_not_intro hn)]

/-! ## Claims -/

/-- C1: the claim says the cleaned curve is the slice
[first non-zero index, last non-zero index] INCLUSIVE, so that it ends in a
non-zero value.  The code slices `epicurve[i:j]`, whose right bound is
exclusive: on the differentiated series `[1, 0, 2]` (first non-zero index 0,
last non-zero index 2, no trailing zeros) it outputs `[1, 0]`, dropping the
final non-zero entry and ending in an exact zero. -/
theorem C1_slice_eval :
    cleanEpicurve [1, 0, 2] = some ([1, 0], 0) ∧
    ([1, 0] : List Int).getLast? = some 0 := by decide

/-- C3: the claim says an all-zero differentiated series fails with a
DataError before any out-of-range access.  The code has no such guard: the
scan `while epicurve[i] == 0: i += 1` walks past the last index and the read
raises IndexError, which the embedding reports as `none`. -/
theorem C3_all_zero_eval :
    firstNonzeroIdx? (List.replicate 10 0) = none ∧
    cleanEpicurve (List.replicate 10 0) = none ∧
    cleanEpicurve [0, 0, 0] = none := by decide

/-- C2 counterexample: on a series whose last non-zero index `j = 3` is
smaller than `WINDOW_SIZE / 2 = 7`, the Python slice `[:j - 7]` has a
negative right bound, so it removes 4 elements from the END instead of
truncating the series to index `j - 7`: the cleaned output is `[1, 0]`,
not the empty list that truncation to index `j - window/2 ≤ 0` would
leave. -/
theorem C2_cex :
    firstNonzeroIdx? ([0, 1, 0, 2] ++ List.replicate 16 0) = some 1 ∧
    lastNonzeroIdx ([0, 1, 0, 2] ++ List.replicate 16 0) = 3 ∧
    cleanEpicurve ([0, 1, 0, 2] ++ List.replicate 16 0) = some ([1, 0], 23) ∧
    ([1, 0] : List Int) ≠
      ((([0, 1, 0, 2] ++ List.replicate 16 0 : List Int)).take
        (3 - WINDOW_SIZE / 2)).drop 1 := by decide

/-- C2 (amended): with `i` the first non-zero index, `j` the last non-zero
index and `n` the number of trailing zeros, if `n ≠ 0` AND `j ≥ window/2`,
the series is truncated to index `j - window/2` and the reported delay is
`n + window/2`; if `n = 0` the delay is 0 and no tail truncation occurs
(only the boundary slice `[i:j]`). -/
theorem C2_tail (l : List Int) (i j n : Nat)
    (h1 : firstNonzeroIdx? l = some i) (h2 : lastNonzeroIdx l = j)
    (h3 : n = l.length - j - 1) :
    (n ≠ 0 → WINDOW_SIZE / 2 ≤ j →
      cleanEpicurve l =
        some ((l.take (j - WINDOW_SIZE / 2)).drop i, n + WINDOW_SIZE / 2)) ∧
    (n = 0 → cleanEpicurve l = some ((l.take j).drop i, 0)) := by
  constructor
  · intro hn hw
    subst h3
    exact cleanEpicurve_tail_pos l i j h1 h2 hn hw
  · intro hn
    subst h3
    exact cleanEpicurve_tail_zero l i j h1 h2 hn

/-- C2 witness: a concrete series with `i = 1`, `j = 9`, `n = 2`. -/
theorem C2_tail_witness :
    (2 : Nat) ≠ 0 ∧ WINDOW_SIZE / 2 ≤ 9 ∧
    cleanEpicurve [0, 1, 0, 0, 0, 0, 0, 0, 0, 2, 0, 0] =
      some ((([0, 1, 0, 0, 0, 0, 0, 0, 0, 2, 0, 0] : List Int).take
        (9 - WINDOW_SIZE / 2)).drop 1, 2 + WINDOW_SIZE / 2) :=
  ⟨by decide, by decide,
    (C2_tail [0, 1, 0, 0, 0, 0, 0, 0, 0, 2, 0, 0] 1 9 2
      (by decide) (by decide) (by decide)).1 (by decide) (by decide)⟩

/-- C10 counterexample: `j = 3 < window/2`, so `j - window/2 ≤ i` holds
(with `i = 0`), the tail truncation fires (`n = 16`), and yet the resulting
series is `[1, 0, 0]`, not empty: the negative Python slice bound `[:3 - 7]`
keeps the first 16 elements instead of none. -/
theorem C10_cex :
    firstNonzeroIdx? ([1, 0, 0, 2] ++ List.replicate 16 0) = some 0 ∧
    lastNonzeroIdx ([1, 0, 0, 2] ++ List.replicate 16 0) = 3 ∧
    3 - WINDOW_SIZE / 2 ≤ 0 ∧
    cleanEpicurve ([1, 0, 0, 2] ++ List.replicate 16 0) = some ([1, 0, 0], 23) ∧
    ([1, 0, 0] : List Int) ≠ [] := by decide

/-- C10 (amended): when the tail truncation fires (`n ≠ 0`), `j ≥ window/2`
and `j - window/2 ≤ i`, the cleaned series is empty, and region preparation
still completes without error, writing a config whose epicurve data array is
empty (and whose delay is `n + window/2`). -/
theorem C10_empty (bins pc l : List Int) (i j n : Nat)
    (hb : ageBuckets bins = some pc)
    (h1 : firstNonzeroIdx? l = some i) (h2 : lastNonzeroIdx l = j)
    (h3 : n = l.length - j - 1) (h4 : n ≠ 0)
    (h5 : WINDOW_SIZE / 2 ≤ j) (h6 : j - WINDOW_SIZE / 2 ≤ i) :
    cleanEpicurve l = some ([], n + WINDOW_SIZE / 2) ∧
    prepare_region bins l =
      some { num_iter := 60, pop_counts := pc, epicurve_data := [],
             delay := n + WINDOW_SIZE / 2 } := by
  subst h3
  have hclean : cleanEpicurve l = some ([], (l.length - j - 1) + WINDOW_SIZE / 2) := by
    rw [cleanEpicurve_tail_pos l i j h1 h2 h4 h5]
    have hnil : (l.take (j - WINDOW_SIZE / 2)).drop i = [] :=
      List.drop_eq_nil_of_le (le_trans (List.length_take_le _ _) h6)
    rw [hnil]
  refine ⟨hclean, ?_⟩
  unfold prepare_region
  rw [hb, hclean]

/-- C10 witness: a length-11 series with `i = 1`, `j = 8`, `n = 2` and a
standard 18-bin histogram. -/
theorem C10_empty_witness :
    ageBuckets (List.replicate 18 1) = some (List.replicate 9 2) ∧
    prepare_region (List.replicate 18 1) [0, 1, 0, 0, 0, 0, 0, 0, 2, 0, 0] =
      some { num_iter := 60, pop_counts := List.replicate 9 2,
             epicurve_data := [], delay := 9 } :=
  ⟨by decide,
    (C10_empty (List.replicate 18 1) (List.replicate 9 2)
      [0, 1, 0, 0, 0, 0, 0, 0, 2, 0, 0] 1 8 2
      (by decide) (by decide) (by decide) (by decide) (by decide)
      (by decide) (by decide)).2⟩

theorem getD_map_neg : ∀ (l : List Int) (t : Nat),
    (l.map (fun x => -x)).getD t 0 = -(l.getD t 0)
  | [], _ => by simp
  | _ :: _, 0 => rfl
  | _ :: xs, t + 1 => by simpa using getD_map_neg xs t

theorem getD_zipWith_sub : ∀ (a b : List Int) (t : Nat), t < a.length → t < b.length →
    (List.zipWith (· - ·) a b).getD t 0 = a.getD t 0 - b.getD t 0
  | _ :: _, _ :: _, 0, _, _ => rfl
  | _ :: a, _ :: b, t + 1, h1, h2 => by
      simpa using getD_zipWith_sub a b t (Nat.lt_of_succ_lt_succ h1) (Nat.lt_of_succ_lt_succ h2)
  | [], _, t, h1, _ => absurd h1 (Nat.not_lt_zero t)
  | _ :: _, [], t, _, h2 => absurd h2 (Nat.not_lt_zero t)

theorem getD_map_sub_left (c : Int) : ∀ (l : List Int) (t : Nat), t < l.length →
    (l.map (fun s => c - s)).getD t 0 = c - l.getD t 0
  | _ :: _, 0, _ => rfl
  | _ :: xs, t + 1, h => by simpa using getD_map_sub_left c xs t (Nat.lt_of_succ_lt_succ h)
  | [], t, h => absurd h (Nat.not_lt_zero t)

theorem getD_map_sub_right (c : Int) : ∀ (l : List Int) (t : Nat), t < l.length →
    (l.map (fun d => d - c)).getD t 0 = l.getD t 0 - c
  | _ :: _, 0, _ => rfl
  | _ :: xs, t + 1, h => by simpa using getD_map_sub_right c xs t (Nat.lt_of_succ_lt_succ h)
  | [], t, h => absurd h (Nat.not_lt_zero t)

theorem diffFill0_getD_zero (l : List Int) (h : l ≠ []) : (diffFill0 l).getD 0 0 = 0 := by
  cases l with
  | nil => exact absurd rfl h
  | cons x xs => rfl

theorem diffFill0_getD_succ (l : List Int) (t : Nat) (h : t + 1 < l.length) :
    (diffFill0 l).getD (t + 1) 0 = l.getD (t + 1) 0 - l.getD t 0 := by
  cases l with
  | nil => exact absurd h (by simp)
  | cons x xs =>
      have hx : t < xs.length := by simpa using h
      have hx2 : t < (x :: xs).length := by simp only [List.length_cons]; omega
      show (0 :: List.zipWith (· - ·) xs (x :: xs)).getD (t + 1) 0 = _
      rw [List.getD_cons_succ, getD_zipWith_sub xs (x :: xs) t hx hx2, List.getD_cons_succ]

/-- C7 counterexample: the claim says the first entry of the daily series is
the first absolute value of the cumulative series.  The code runs
`.diff().fillna(0)`, whose first entry is 0: on the cumulative series
`[5, 7, 7]` the code produces `[0, 2, 0]`, not `[5, 2, 0]`. -/
theorem C7_cex :
    diffFill0 [5, 7, 7] = [0, 2, 0] ∧
    specDiffFirstAbs [5, 7, 7] = [5, 2, 0] ∧
    diffFill0 [5, 7, 7] ≠ specDiffFirstAbs [5, 7, 7] := by decide

/-- C7 (amended): the daily series has the length of the cumulative series;
its first entry (whose day-over-day difference is undefined) is filled with
0, and every later entry `t+1` is the difference `cases[t+1] - cases[t]`
(exact on the already-integer series). -/
theorem C7_diff (cs : List Int) :
    (diffFill0 cs).length = cs.length ∧
    (cs ≠ [] → (diffFill0 cs).getD 0 0 = 0) ∧
    (∀ t, t + 1 < cs.length →
      (diffFill0 cs).getD (t + 1) 0 = cs.getD (t + 1) 0 - cs.getD t 0) := by
  refine ⟨?_, fun h => diffFill0_getD_zero cs h, fun t ht => diffFill0_getD_succ cs t ht⟩
  cases cs with
  | nil => rfl
  | cons x xs =>
      show (0 :: List.zipWith (· - ·) xs (x :: xs)).length = (x :: xs).length
      simp only [List.length_cons, List.length_zipWith]
      omega

/-- C7 witness: the amended statement evaluated on `[4, 9]`. -/
theorem C7_diff_witness :
    ([4, 9] : List Int) ≠ [] ∧ (diffFill0 [4, 9]).getD 0 0 = 0 ∧
    (diffFill0 [4, 9]).getD 1 0 = ([4, 9] : List Int).getD 1 0 - ([4, 9] : List Int).getD 0 0 :=
  ⟨by decide, (C7_diff [4, 9]).2.1 (by decide), (C7_diff [4, 9]).2.2 0 (by decide)⟩

/-- C5: post-processing augments the output with `new_cases` equal to the
negative first difference of `S`, `new_deaths` equal to the first difference
of `D`, `cases t = S 0 - S t`, `deaths t = D t - D 0`, and zero first-row
deltas. -/
theorem C5_post (S D : List Int) (r : SimResult) (h : postProcess S D = some r) :
    r.new_cases.getD 0 0 = 0 ∧ r.new_deaths.getD 0 0 = 0 ∧
    (∀ t, t + 1 < S.length →
      r.new_cases.getD (t + 1) 0 = -(S.getD (t + 1) 0 - S.getD t 0)) ∧
    (∀ t, t + 1 < D.length →
      r.new_deaths.getD (t + 1) 0 = D.getD (t + 1) 0 - D.getD t 0) ∧
    (∀ t, t < S.length → r.cases.getD t 0 = S.getD 0 0 - S.getD t 0) ∧
    (∀ t, t < D.length → r.deaths.getD t 0 = D.getD t 0 - D.getD 0 0) := by
  cases S with
  | nil => simp [postProcess] at h
  | cons s0 S2 =>
  cases D with
  | nil => simp [postProcess] at h
  | cons d0 D2 =>
  simp only [postProcess, Option.some.injEq] at h
  subst h
  refine ⟨?_, ?_, ?_, ?_, ?_, ?_⟩
  · show ((diffFill0 (s0 :: S2)).map (fun x => -x)).getD 0 0 = 0
    rw [getD_map_neg, diffFill0_getD_zero _ (by simp)]
    exact neg_zero
  · show (diffFill0 (d0 :: D2)).getD 0 0 = 0
    exact diffFill0_getD_zero _ (by simp)
  · intro t ht
    show ((diffFill0 (s0 :: S2)).map (fun x => -x)).getD (t + 1) 0 = _
    rw [getD_map_neg, diffFill0_getD_succ _ t ht]
  · intro t ht
    exact diffFill0_getD_succ _ t ht
  · intro t ht
    exact getD_map_sub_left s0 _ t ht
  · intro t ht
    exact getD_map_sub_right d0 _ t ht

/-- The post-processed result of the mock 3-day output `S = [10, 8, 8]`,
`D = [0, 1, 3]`. -/
def ppEx : SimResult :=
  { S := [10, 8, 8], D := [0, 1, 3], new_cases := [0, 2, 0], new_deaths := [0, 1, 2],
    cases := [0, 2, 2], deaths := [0, 1, 3] }

/-- C5 witness: the theorem evaluated on the mock output behind `ppEx`. -/
theorem C5_post_witness :
    postProcess [10, 8, 8] [0, 1, 3] = some ppEx ∧
    ppEx.new_cases.getD 0 0 = 0 ∧
    ppEx.new_cases.getD 2 0 =
      -(([10, 8, 8] : List Int).getD 2 0 - ([10, 8, 8] : List Int).getD 1 0) ∧
    ppEx.deaths.getD 2 0 = ([0, 1, 3] : List Int).getD 2 0 - ([0, 1, 3] : List Int).getD 0 0 :=
  ⟨by decide,
    (C5_post [10, 8, 8] [0, 1, 3] ppEx (by decide)).1,
    (C5_post [10, 8, 8] [0, 1, 3] ppEx (by decide)).2.2.1 1 (by decide),
    (C5_post [10, 8, 8] [0, 1, 3] ppEx (by decide)).2.2.2.2.2 2 (by decide)⟩

/-- C9: post-processing is idempotent — its derived columns are recomputed
deterministically from the unchanged `S` and `D` columns, so applying it to
an already-post-processed result reproduces that result exactly. -/
theorem C9_idempotent (S D : List Int) (r : SimResult) (h : postProcess S D = some r) :
    postProcess r.S r.D = some r := by
  cases S with
  | nil => simp [postProcess] at h
  | cons s0 S2 =>
  cases D with
  | nil => simp [postProcess] at h
  | cons d0 D2 =>
  simp only [postProcess, Option.some.injEq] at h
  subst h
  rfl

/-- The post-processed result of the 2-day output `S = [9, 7]`, `D = [0, 2]`. -/
def ppEx2 : SimResult :=
  { S := [9, 7], D := [0, 2], new_cases := [0, 2], new_deaths := [0, 2],
    cases := [0, 2], deaths := [0, 2] }

/-- C9 witness: applying post-processing to the already-post-processed
`ppEx2` reproduces it. -/
theorem C9_idempotent_witness :
    postProcess [9, 7] [0, 2] = some ppEx2 ∧ postProcess ppEx2.S ppEx2.D = some ppEx2 :=
  ⟨by decide, C9_idempotent [9, 7] [0, 2] ppEx2 (by decide)⟩

/-- C4 counterexample: among five regions, region 2's executable exits with
status 1 while the others exit 0.  The claim says region 2 is treated as a
fatal failure and reported; the code calls `subprocess.run` without
`check=True` and never reads the exit status, so region 2's run is
post-processed exactly like region 0's successful run — all five regions
complete and no failure exists to report. -/
theorem C4_cex :
    (exe5 2).1 = 1 ∧ (exe5 2).1 ≠ 0 ∧
    run_simulation exe5 2 = run_simulation exe5 0 ∧
    (run_simulation exe5 2).isSome = true ∧
    (∀ r ∈ List.range 5, (run_simulation exe5 r).isSome = true) := by decide

/-- C4 (amended): the exit status is ignored — a region's result depends
only on the `(S, D)` output its own executable invocation leaves behind, so
two executables agreeing on that output for a region (whatever their exit
codes, and whatever they do for other regions) give that region the same
result.  Failures are neither reported nor retried. -/
theorem C4_exit_ignored (exe exe2 : Nat → Int × Option (List Int × List Int)) (r : Nat)
    (h : (exe r).2 = (exe2 r).2) :
    run_simulation exe r = run_simulation exe2 r := by
  unfold run_simulation
  rw [h]

/-- A mock executable that always exits 0 and writes a fixed series. -/
def exeOk : Nat → Int × Option (List Int × List Int) := fun _ => (0, some ([5, 3], [0, 1]))

/-- A mock executable that always exits 1 but writes the same series. -/
def exeCrash : Nat → Int × Option (List Int × List Int) := fun _ => (1, some ([5, 3], [0, 1]))

/-- C4 witness: an exit-1 executable and an exit-0 executable with the same
output give region 0 the same result. -/
theorem C4_exit_ignored_witness :
    (exeCrash 0).2 = (exeOk 0).2 ∧ (exeCrash 0).1 ≠ (exeOk 0).1 ∧
    run_simulation exeCrash 0 = run_simulation exeOk 0 :=
  ⟨rfl, by decide, C4_exit_ignored exeCrash exeOk 0 rfl⟩

/-- C6: for every age histogram with at least 18 bins — written as 18
explicit leading bins plus an arbitrary remainder — the builder produces
exactly 9 buckets, bucket `k` being `bins[2k] + bins[2k+1]`, with the 9th
bucket additionally absorbing the sum of all bins from index 18 onward; in
particular a flat 19-bin histogram of 1s yields `[2,2,2,2,2,2,2,2,3]`. -/
theorem C6_buckets :
    (∀ (b0 b1 b2 b3 b4 b5 b6 b7 b8 b9 b10 b11 b12 b13 b14 b15 b16 b17 : Int)
        (rest : List Int),
      ageBuckets (b0 :: b1 :: b2 :: b3 :: b4 :: b5 :: b6 :: b7 :: b8 :: b9 :: b10 :: b11 ::
          b12 :: b13 :: b14 :: b15 :: b16 :: b17 :: rest) =
        some [b0 + b1, b2 + b3, b4 + b5, b6 + b7, b8 + b9, b10 + b11, b12 + b13,
          b14 + b15, b16 + b17 + rest.sum]) ∧
    ageBuckets (List.replicate 19 1) = some [2, 2, 2, 2, 2, 2, 2, 2, 3] := by
  constructor
  · intro b0 b1 b2 b3 b4 b5 b6 b7 b8 b9 b10 b11 b12 b13 b14 b15 b16 b17 rest
    rfl
  · decide

/-- C6 witness: the general bucket formula applied to the flat 19-bin
histogram written as explicit conses. -/
theorem C6_buckets_witness :
    ageBuckets (1 :: 1 :: 1 :: 1 :: 1 :: 1 :: 1 :: 1 :: 1 :: 1 :: 1 :: 1 :: 1 :: 1 :: 1 ::
        1 :: 1 :: 1 :: [1]) = some [2, 2, 2, 2, 2, 2, 2, 2, 3] :=
  C6_buckets.1 1 1 1 1 1 1 1 1 1 1 1 1 1 1 1 1 1 1 [1]

/-- C8 counterexample: a 16-bin histogram has fewer than 18 bins, yet the
builder does not fail — it silently produces 8 buckets (the even slice and
the odd slice both have 8 entries, so the numpy `+=` succeeds). -/
theorem C8_cex :
    (List.replicate 16 (1 : Int)).length < 18 ∧
    ageBuckets (List.replicate 16 1) = some [2, 2, 2, 2, 2, 2, 2, 2] := by decide

/-- C8 (amended): there is no ConfigError; the builder raises (a numpy
shape-mismatch on `+=`, or an IndexError on `distrib[-1]` for an empty
histogram) exactly when the bin count is 0, 1, or an odd count between 5
and 17.  Every other bin count succeeds — even counts below 18 silently
produce fewer than 9 buckets, and a 3-bin histogram broadcasts its single
odd-slice entry. -/
theorem C8_error_iff (bins : List Int) :
    ageBuckets bins = none ↔
      bins.length = 0 ∨ bins.length = 1 ∨
        (5 ≤ bins.length ∧ bins.length < 18 ∧ bins.length % 2 = 1) := by
  have ht : (bins.take 18).length = min 18 bins.length := List.length_take 18 bins
  have hA : (evens (bins.take 18)).length = ((bins.take 18).length + 1) / 2 :=
    evens_length _
  have hB : (evens (bins.take 18).tail).length = (bins.take 18).length / 2 := by
    rw [evens_length, List.length_tail]
    omega
  unfold ageBuckets
  rcases hnp : npAddInPlace (evens (bins.take 18)) (evens (bins.take 18).tail) with _ | d
  · have hq1 : ¬ (evens (bins.take 18).tail).length = (evens (bins.take 18)).length := by
      intro hq
      unfold npAddInPlace at hnp
      rw [if_pos hq] at hnp
      cases hnp
    have hq2 : ¬ (evens (bins.take 18).tail).length = 1 := by
      intro hq
      unfold npAddInPlace at hnp
      rw [if_neg hq1, if_pos hq] at hnp
      cases hnp
    simp only [Option.none_bind]
    exact iff_of_true trivial (by omega)
  · have hsome : (evens (bins.take 18).tail).length = (evens (bins.take 18)).length ∨
        (evens (bins.take 18).tail).length = 1 := by
      by_contra hc
      push_neg at hc
      unfold npAddInPlace at hnp
      rw [if_neg hc.1, if_neg hc.2] at hnp
      cases hnp
    have hdlen : d.length = (evens (bins.take 18)).length ∨
        d.length =
          min (evens (bins.take 18)).length (evens (bins.take 18).tail).length := by
      unfold npAddInPlace at hnp
      split_ifs at hnp with hq1 hq2
      · have hd := Option.some.inj hnp
        subst hd
        right
        exact List.length_zipWith _ _ _
      · have hd := Option.some.inj hnp
        subst hd
        left
        exact List.length_map _ _
    simp only [Option.some_bind]
    by_cases hdd : d = []
    · subst hdd
      rw [dif_pos rfl]
      simp only [List.length_nil] at hdlen
      exact iff_of_true rfl (by omega)
    · rw [dif_neg hdd]
      have hdne : d.length ≠ 0 := fun h0 => hdd (List.length_eq_zero.mp h0)
      exact iff_of_false (by simp) (by omega)

/-- C8 witness: a 7-bin histogram (odd, between 5 and 17) makes the builder
raise. -/
theorem C8_error_iff_witness :
    ageBuckets (List.replicate 7 1) = none ∧
    (5 ≤ (List.replicate 7 (1 : Int)).length ∧ (List.replicate 7 (1 : Int)).length < 18 ∧
      (List.replicate 7 (1 : Int)).length % 2 = 1) :=
  ⟨(C8_error_iff (List.replicate 7 1)).mpr (by decide), by decide⟩

end Covid
